import Mathlib

/-!
# Verification of `selenium-grid-cleaner`

A shallow embedding, in Lean 4, of the core logic of the
`maxkulish/selenium-grid-cleaner` repository, together with proofs of the
behavioural properties its specification states.

Embedded components (with the Go source they are translated from):

* URL handling of `PortForwarder.GetLocalURL`
  (`internal/portforwarder/portforwarder.go`), including a model of the
  fragment of Go's `net/url.Parse` / `URL.String` that the function exercises.
* `parseSessionInfo`, `getPodName`, `deletePod` and `CheckAndCleanup` from
  `cmd/selenium-cleaner/main.go`.
* The retrying `getGridStatus` variant.
* The counting-semaphore dispatch discipline of `CheckAndCleanup`
  (`wg.Add` / `sem <- struct{}{}` / `go func … <-sem`), modelled as a
  step relation.

External effects (HTTP fetches, `kubectl` invocations) are modelled as oracle
functions passed to the embedded code; the embedded code performs exactly the
same post-processing on the oracle results that the Go code performs on the
real results.  Strings are processed as `List Char` where structural recursion
is needed, with `String` wrappers at the interface.
-/

/-! ## A model of the fragment of Go `net/url` used by `GetLocalURL`

`GetLocalURL` calls `url.Parse`, rewrites `u.Host`, and calls `u.String()`.
The model below covers scheme / authority (host) / path / opaque splitting and
the principal parse-failure modes of `net/url.Parse` (control characters,
missing protocol scheme, colon in the first path segment).  User info, query,
fragment, percent-escaping, host-character validation and port validation are
outside the modelled fragment; the scheme is not lower-cased.  `urlString` is
faithful to Go's `URL.String` for the URLs this program prints (in
`GetLocalURL` the host is always set to a non-empty value before printing).
-/

/-- Go `strings.ContainsCTLByte`: ASCII control characters, which make
`net/url.Parse` fail. -/
def isCtl (c : Char) : Bool := c.toNat < 32 || c.toNat == 127

/-- Characters allowed after the first character of a URL scheme
(Go `net/url.getScheme`). -/
def isSchemeTail (c : Char) : Bool :=
  c.isAlpha || c.isDigit || c == '+' || c == '-' || c == '.'

/-- Go `net/url.getScheme`: split `scheme:rest`.  Returns `none` for
"missing protocol scheme" (the raw URL starts with `:`); returns an empty
scheme when no scheme prefix is present. -/
def splitScheme : List Char → Option (List Char × List Char)
  | [] => some ([], [])
  | c :: cs =>
    if c == ':' then none
    else if c.isAlpha then
      match (c :: cs).dropWhile isSchemeTail with
      | ':' :: r => some ((c :: cs).takeWhile isSchemeTail, r)
      | _ => some ([], c :: cs)
    else some ([], c :: cs)

/-- The components of a parsed URL that `GetLocalURL` manipulates
(Go `url.URL` restricted to `Scheme`, `Opaque`, `Host`, `Path`). -/
structure GoURL where
  scheme : List Char
  opq : List Char
  host : List Char
  path : List Char
  deriving Repr, DecidableEq

/-- Model of Go `net/url.Parse` on the fragment described above.  The error
strings are the messages `net/url` produces. -/
def parseURL (s : List Char) : Except (List Char) GoURL :=
  if s.any isCtl then
    .error "net/url: invalid control character in URL".data
  else
    match splitScheme s with
    | none => .error "missing protocol scheme".data
    | some (sch, rest) =>
      if sch ≠ [] ∧ rest.take 1 ≠ ['/'] then
        .ok ⟨sch, rest, [], []⟩
      else if rest.take 2 = ['/', '/'] then
        let after := rest.drop 2
        .ok ⟨sch, [], after.takeWhile (· ≠ '/'), after.dropWhile (· ≠ '/')⟩
      else if sch = [] ∧ (rest.takeWhile (· ≠ '/')).contains ':' then
        .error "first path segment in URL cannot contain colon".data
      else
        .ok ⟨sch, [], [], rest⟩

/-- Model of Go `url.URL.String` on the same fragment.  Faithful whenever the
URL is opaque or has a non-empty host (every URL this program converts back to
a string has its host freshly set to `hostname:port`). -/
def urlString (u : GoURL) : List Char :=
  (if u.scheme = [] then [] else u.scheme ++ [':']) ++
    if u.opq ≠ [] then u.opq
    else
      (if u.host = [] then [] else '/' :: '/' :: u.host) ++
        if u.host ≠ [] ∧ u.path ≠ [] ∧ u.path.head? ≠ some '/' then
          '/' :: u.path
        else u.path

/-- The host `GetLocalURL` installs: `hostname + ":" + strconv.Itoa(localPort)`
where `hostname` is `parts[0]` of `strings.Split(host, ":")` if the host
contains a `:` and the literal `"localhost"` otherwise
(`portforwarder.go` lines 100–106). -/
def newHostOf (localPort : Nat) (host : List Char) : List Char :=
  let parts := host.splitOn ':'
  let hostname := if parts.length > 1 then parts.headI else "localhost".data
  hostname ++ ':' :: (Nat.repr localPort).data

/-- `PortForwarder.GetLocalURL` (`internal/portforwarder/portforwarder.go`
lines 92–109, identical in both repository variants), on character lists:
parse the URL (returning the input unchanged on parse failure), replace the
host, and print the result. -/
def getLocalURLL (localPort : Nat) (s : List Char) : List Char :=
  match parseURL s with
  | .error _ => s
  | .ok u => urlString { u with host := newHostOf localPort u.host }

/-- `PortForwarder.GetLocalURL` on `String`s.  The relevant state of the
`PortForwarder` receiver is its `localPort` field, the only field the
function reads. -/
def GetLocalURL (localPort : Nat) (remoteURL : String) : String :=
  ⟨getLocalURLL localPort remoteURL.data⟩

example : GetLocalURL 9515 "http://localhost:4444/wd/hub/status" =
    "http://localhost:9515/wd/hub/status" := by decide

example : GetLocalURL 9515 "http://selenium-router:4444/wd/hub/status" =
    "http://selenium-router:9515/wd/hub/status" := by decide

example : GetLocalURL 9515 "http://example.com/status" =
    "http://localhost:9515/status" := by decide

example : GetLocalURL 9515 ":" = ":" := by decide

/-! ## A model of `time.Parse(time.RFC3339, s)`

`parseSessionInfo` parses each slot's `session.start` with the fixed wire
format `time.RFC3339` (`2006-01-02T15:04:05Z07:00`).  The model accepts
`YYYY-MM-DDTHH:MM:SS`, an optional fractional-second field (which Go's
`time.Parse` accepts implicitly), and a zone of `Z` or `±HH:MM`, validating
the calendar ranges as Go does, and yields nanoseconds since the Unix epoch.
Lower-case `t`/`z` and leap seconds are outside the modelled fragment. -/

/-- Numeric value of a decimal digit character. -/
def digitVal (c : Char) : Nat := c.toNat - 48

/-- Read exactly `k` decimal digits, most significant first. -/
def parseNatFixed : Nat → Nat → List Char → Option (Nat × List Char)
  | acc, 0, cs => some (acc, cs)
  | acc, k + 1, c :: cs =>
    if c.isDigit then parseNatFixed (acc * 10 + digitVal c) k cs else none
  | _, _ + 1, [] => none

/-- Expect one specific character. -/
def expectChar (c : Char) : List Char → Option (List Char)
  | d :: r => if d = c then some r else none
  | [] => none

/-- Gregorian leap year. -/
def isLeap (y : Nat) : Bool := y % 4 == 0 && (y % 100 != 0 || y % 400 == 0)

/-- Days in a month, as Go's date validation uses. -/
def daysInMonth (y m : Nat) : Nat :=
  if m = 2 then (if isLeap y then 29 else 28)
  else if m = 4 ∨ m = 6 ∨ m = 9 ∨ m = 11 then 30
  else 31

/-- Days between a civil date and 1970-01-01 (proleptic Gregorian). -/
def daysFromCivil (year : Int) (m d : Nat) : Int :=
  let y := if m ≤ 2 then year - 1 else year
  let era := (if 0 ≤ y then y else y - 399) / 400
  let yoe := y - era * 400
  let mp : Int := if m ≤ 2 then (m : Int) + 9 else (m : Int) - 3
  let doy := (153 * mp + 2) / 5 + (d : Int) - 1
  let doe := yoe * 365 + yoe / 4 - yoe / 100 + doy
  era * 146097 + doe - 719468

/-- An optional fractional-second field: `.` followed by at least one digit.
Returns the value in nanoseconds and the remaining input. -/
def parseFrac : List Char → Option (Nat × List Char)
  | '.' :: cs =>
    let digits := cs.takeWhile Char.isDigit
    if digits = [] then none
    else
      let take9 := digits.take 9
      let v := take9.foldl (fun acc c => acc * 10 + digitVal c) 0
      some (v * 10 ^ (9 - take9.length), cs.dropWhile Char.isDigit)
  | cs => some (0, cs)

/-- The zone field of the RFC3339 layout: `Z` or `±HH:MM`, as an offset in
seconds east of UTC. -/
def parseZone : List Char → Option (Int × List Char)
  | 'Z' :: r => some (0, r)
  | '+' :: r => do
    let (hh, r) ← parseNatFixed 0 2 r
    let r ← expectChar ':' r
    let (mm, r) ← parseNatFixed 0 2 r
    if hh ≤ 23 ∧ mm ≤ 59 then some (((hh : Int) * 3600 + mm * 60), r) else none
  | '-' :: r => do
    let (hh, r) ← parseNatFixed 0 2 r
    let r ← expectChar ':' r
    let (mm, r) ← parseNatFixed 0 2 r
    if hh ≤ 23 ∧ mm ≤ 59 then some ((-((hh : Int) * 3600 + mm * 60)), r) else none
  | _ => none

/-- `time.Parse(time.RFC3339, s)` on the modelled fragment: `none` is a parse
error, `some t` is the instant as nanoseconds since the Unix epoch. -/
def parseRFC3339 (s : String) : Option Int := do
  let cs := s.data
  let (year, r) ← parseNatFixed 0 4 cs
  let r ← expectChar '-' r
  let (month, r) ← parseNatFixed 0 2 r
  let r ← expectChar '-' r
  let (day, r) ← parseNatFixed 0 2 r
  let r ← expectChar 'T' r
  let (hh, r) ← parseNatFixed 0 2 r
  let r ← expectChar ':' r
  let (mi, r) ← parseNatFixed 0 2 r
  let r ← expectChar ':' r
  let (ss, r) ← parseNatFixed 0 2 r
  let (frac, r) ← parseFrac r
  let (offset, r) ← parseZone r
  if r = [] ∧ 1 ≤ month ∧ month ≤ 12 ∧ 1 ≤ day ∧ day ≤ daysInMonth year month ∧
      hh ≤ 23 ∧ mi ≤ 59 ∧ ss ≤ 59 then
    some ((daysFromCivil year month day * 86400 +
      (hh : Int) * 3600 + mi * 60 + ss - offset) * 1000000000 + frac)
  else none

example : daysFromCivil 1970 1 1 = 0 := by decide
example : parseRFC3339 "2024-11-05T12:30:00Z" = some 1730809800000000000 := by
  decide
example : parseRFC3339 "2024-11-05T12:30:00+01:00" =
    some 1730806200000000000 := by decide
example : parseRFC3339 "not-a-date" = none := by decide
example : parseRFC3339 "2024-02-30T00:00:00Z" = none := by decide

/-! ## The grid status snapshot and session extraction

Data model of the decoded `/status` response (`GridStatus` in
`cmd/selenium-cleaner/main.go` lines 31–46) and the extraction function
`parseSessionInfo` (lines 176–208; the `unnamed` variant is identical).
A snapshot whose top-level structure cannot be decoded never reaches
`parseSessionInfo`: that failure happens in `getGridStatus`'s JSON decoding
and aborts the pass there. -/

/-- `GridStatus.Value.Nodes[].Slots[].Session`. -/
structure SessionJ where
  start : String
  sessionID : String
  deriving Repr, DecidableEq

/-- `GridStatus.Value.Nodes[].Slots[]`; `session` is a JSON pointer and is
absent (`nil`) for a free slot. -/
structure SlotJ where
  session : Option SessionJ
  state : String
  deriving Repr, DecidableEq

/-- `GridStatus.Value.Nodes[]`. -/
structure NodeJ where
  uri : String
  slots : List SlotJ
  deriving Repr, DecidableEq

/-- `GridStatus.Value`. -/
structure GridStatusV where
  ready : Bool
  nodes : List NodeJ
  deriving Repr, DecidableEq

/-- `SessionInfo` (`main.go` lines 48–55), with the start time as
nanoseconds since the epoch (Go `time.Time` at nanosecond resolution). -/
structure SessionInfo where
  nodeIP : String
  startTimeNs : Int
  sessionID : String
  podName : String
  slotState : String
  deriving Repr, DecidableEq

/-- `strings.Split(nodeURL.Host, ":")[0]` (`main.go` line 185). -/
def hostIP (host : List Char) : String := ⟨(host.splitOn ':').headI⟩

/-- The error `parseSessionInfo` returns for an unparseable node URI:
`fmt.Errorf("failed to parse node URI %s: %w", node.URI, err)`, where the
wrapped `*url.Error` prints as `parse "<uri>": <inner>`. -/
def nodeURIErr (uri : String) (inner : List Char) : String :=
  "failed to parse node URI " ++ uri ++ ": parse \"" ++ uri ++ "\": " ++ ⟨inner⟩

/-- The inner loop of `parseSessionInfo` (`main.go` lines 187–204): for each
slot, skip it if it has no session; skip it (log, continue) if the start
timestamp does not parse; otherwise emit a `SessionInfo`. -/
def slotSessions (nodeIP : String) : List SlotJ → List SessionInfo
  | [] => []
  | slot :: rest =>
    match slot.session with
    | none => slotSessions nodeIP rest
    | some sess =>
      match parseRFC3339 sess.start with
      | none => slotSessions nodeIP rest
      | some t =>
        ⟨nodeIP, t, sess.sessionID, "", slot.state⟩ :: slotSessions nodeIP rest

/-- The node loop of `parseSessionInfo` (`main.go` lines 179–205): parse each
node URI with `url.Parse`, failing the whole extraction on the first node
whose URI does not parse, and otherwise collect the slot sessions with the
node's bare IP. -/
def parseNodes : List NodeJ → Except String (List SessionInfo)
  | [] => .ok []
  | node :: rest =>
    match parseURL node.uri.data with
    | .error e => .error (nodeURIErr node.uri e)
    | .ok u => do
      let tail ← parseNodes rest
      .ok (slotSessions (hostIP u.host) node.slots ++ tail)

/-- `parseSessionInfo` (`main.go` lines 176–208). -/
def parseSessionInfo (status : GridStatusV) : Except String (List SessionInfo) :=
  parseNodes status.nodes

example :
    parseSessionInfo ⟨true, [⟨"http://10.0.0.7:5555",
      [⟨some ⟨"2024-11-05T12:30:00Z", "sess-1"⟩, "ACTIVE"⟩,
       ⟨none, "AVAILABLE"⟩,
       ⟨some ⟨"garbage", "sess-2"⟩, "ACTIVE"⟩]⟩]⟩ =
    .ok [⟨"10.0.0.7", 1730809800000000000, "sess-1", "", "ACTIVE"⟩] := by
  rfl

/-! ## Pod resolution and termination

`getPodName` (`main.go` lines 211–229) shells out to
`kubectl get pods -n <ns> -o wide --field-selector status.podIP=<ip>` and
parses its standard output; `deletePod` (lines 232–239) shells out to
`kubectl delete pod <name> -n <ns>`.  The external `kubectl` runs are
oracles; the post-processing of their results is the embedded code. -/

/-- `strings.Fields`: substrings separated by runs of whitespace, with no
empty fields. -/
def goFields (s : String) : List String :=
  ((s.data.splitOnP Char.isWhitespace).filter (· ≠ [])).map fun l => ⟨l⟩

/-- `getPodName` (`main.go` lines 211–229).  `kubectlGet ip` is the result of
running the `kubectl get pods` command for that IP: `.error e` when the
command fails (`cmd.Output()` returns an error that prints as `e`), `.ok out`
its standard output otherwise. -/
def getPodName (kubectlGet : String → Except String String) (nodeIP : String) :
    Except String String :=
  match kubectlGet nodeIP with
  | .error e => .error ("failed to get pod list: " ++ e)
  | .ok output =>
    let lines := output.data.splitOn '\n'
    if lines.length < 2 then .error ("no pod found for IP " ++ nodeIP)
    else
      match goFields ⟨lines.getD 1 []⟩ with
      | [] => .error ("invalid pod data for IP " ++ nodeIP)
      | f :: _ => .ok f

/-- `deletePod` (`main.go` lines 232–239).  `kubectlDelete name` is the
result of the `kubectl delete pod` command: `none` on success,
`some (e, output)` when the command fails with error `e` and combined
output `output`. -/
def deletePod (kubectlDelete : String → Option (String × String))
    (podName : String) : Except String Unit :=
  match kubectlDelete podName with
  | none => .ok ()
  | some (e, output) =>
    .error ("failed to delete pod " ++ podName ++ ": " ++ e ++
      " (output: " ++ output ++ ")")

/-! ## The cleanup pass (`CheckAndCleanup`, `main.go` lines 242–334)

The session loop is embedded as a left fold over the extracted sessions.
The Go code runs the `deletePod` calls on goroutines bounded by a counting
semaphore and joins them with `wg.Wait()` before reading `gc.errors`; the
model sequentialises that dispatch, which preserves the set of issued calls
and recorded errors (the order in which concurrently appended errors land in
`gc.errors` is scheduling-dependent in Go and no claim depends on it).  The
`age.Seconds() <= float64(maxAgeSecs)` comparison is modelled exactly on the
nanosecond integers (`ageNs ≤ maxAgeSecs * 10^9`), eliding float64 rounding
of the division by 10^9.

Alongside the code's own `errors` list the fold records a ghost trace:
which node IPs were resolved, which sessions acquired a semaphore slot,
which `(sessionID, podName)` pairs were passed to `deletePod`, and a
per-candidate `TerminationOutcome` in the specification's sense. -/

/-- The specification's `TerminationOutcome`: one record per termination
candidate, failed iff `err` is present. -/
structure Outcome where
  sessionID : String
  podName : Option String
  err : Option String
  deriving Repr, DecidableEq

/-- The mutable state of one pass: `gc.errors` plus the ghost trace. -/
structure CleanState where
  errors : List String
  resolves : List String
  acquires : List String
  deletes : List (String × String)
  outcomes : List Outcome
  deriving Repr, DecidableEq

/-- The empty pass state (`errors: make([]error, 0)`). -/
def CleanState.init : CleanState := ⟨[], [], [], [], []⟩

/-- The session is over-age: `age.Seconds() > float64(maxAgeSecs)`
(the negation of the skip test on `main.go` line 283). -/
def overAge (nowNs maxAgeSecs : Int) (s : SessionInfo) : Bool :=
  decide (maxAgeSecs * 1000000000 < nowNs - s.startTimeNs)

/-- One iteration of the session loop (`main.go` lines 273–323): skip the
session if it is within the age limit; otherwise resolve its pod name
(recording the error and continuing on failure, without touching the
semaphore), then acquire a semaphore slot and issue the deletion, recording
an error on failure. -/
def processSession (nowNs maxAgeSecs : Int)
    (kubectlGet : String → Except String String)
    (kubectlDelete : String → Option (String × String))
    (st : CleanState) (s : SessionInfo) : CleanState :=
  if ¬ overAge nowNs maxAgeSecs s then st
  else
    let st1 := { st with resolves := st.resolves ++ [s.nodeIP] }
    match getPodName kubectlGet s.nodeIP with
    | .error e =>
      let msg := "pod name retrieval failed for session " ++ s.sessionID ++
        " on node " ++ s.nodeIP ++ ": " ++ e
      { st1 with
        errors := st1.errors ++ [msg]
        outcomes := st1.outcomes ++ [⟨s.sessionID, none, some msg⟩] }
    | .ok podName =>
      let st2 := { st1 with acquires := st1.acquires ++ [s.sessionID] }
      match deletePod kubectlDelete podName with
      | .error e =>
        let msg := "failed to delete pod " ++ podName ++ ": " ++ e
        { st2 with
          deletes := st2.deletes ++ [(s.sessionID, podName)]
          errors := st2.errors ++ [msg]
          outcomes := st2.outcomes ++ [⟨s.sessionID, some podName, some msg⟩] }
      | .ok _ =>
        { st2 with
          deletes := st2.deletes ++ [(s.sessionID, podName)]
          outcomes := st2.outcomes ++ [⟨s.sessionID, some podName, none⟩] }

/-- The whole session loop. -/
def runCleanup (nowNs maxAgeSecs : Int)
    (kubectlGet : String → Except String String)
    (kubectlDelete : String → Option (String × String))
    (sessions : List SessionInfo) : CleanState :=
  sessions.foldl (processSession nowNs maxAgeSecs kubectlGet kubectlDelete)
    CleanState.init

/-- The aggregate error of `main.go` line 329:
`fmt.Errorf("encountered %d errors during cleanup: %v", len(gc.errors),
gc.errors)` (Go's `%v` prints a slice bracketed and space-separated). -/
def aggError (errs : List String) : String :=
  "encountered " ++ toString errs.length ++ " errors during cleanup: [" ++
    String.intercalate " " errs ++ "]"

/-- The final verdict of a pass (`main.go` lines 327–333). -/
def cleanupVerdict (st : CleanState) : Except String Unit :=
  if st.errors.isEmpty then .ok () else .error (aggError st.errors)

/-- `CheckAndCleanup` from session extraction onwards (`main.go` lines
252–334): extract the sessions (aborting the pass if extraction fails),
return success immediately when no session was found (line 265), and
otherwise run the session loop and aggregate.  The preceding health check
and status fetch are modelled separately (`getGridStatus` below). -/
def CheckAndCleanup (nowNs maxAgeSecs : Int)
    (kubectlGet : String → Except String String)
    (kubectlDelete : String → Option (String × String))
    (status : GridStatusV) : CleanState × Except String Unit :=
  match parseSessionInfo status with
  | .error e => (CleanState.init, .error ("failed to parse session info: " ++ e))
  | .ok sessions =>
    if sessions.length = 0 then (CleanState.init, .ok ())
    else
      let st := runCleanup nowNs maxAgeSecs kubectlGet kubectlDelete sessions
      (st, cleanupVerdict st)

/-! ## The retrying status fetch (`getGridStatus`, retry variant lines 204–245)

The repository's retrying `getGridStatus` loops `i` from `0` to
`MaxRetries-1`; each iteration first returns `ctx.Err()` if the context is
done, sleeps `i` seconds when `i > 0`, then performs one fetch attempt
(request construction + HTTP round trip + JSON decode, collapsed into one
oracle), remembering the last error.  Exhausting the loop returns
`fmt.Errorf("failed to get grid status after %d attempts: %w", MaxRetries,
lastErr)`.  The trace records the attempt indices and the sleep durations
(in seconds) in order. -/

/-- Trace of one `getGridStatus` call: which attempt indices ran, and the
sleeps (seconds) performed between them. -/
structure FetchTrace where
  attempts : List Nat
  sleeps : List Nat
  deriving Repr, DecidableEq

/-- The retry loop body, structurally recursive on the remaining iteration
count.  `i` is the Go loop index, `lastErr` the last recorded error. -/
def getGridStatusLoop (maxRetries : Nat) (cancelled : Nat → Bool)
    (fetch : Nat → Except String GridStatusV) :
    Nat → Nat → String → FetchTrace → FetchTrace × Except String GridStatusV
  | _, 0, lastErr, tr =>
    (tr, .error ("failed to get grid status after " ++ toString maxRetries ++
      " attempts: " ++ lastErr))
  | i, remaining + 1, _lastErr, tr =>
    if cancelled i then (tr, .error "context canceled")
    else
      let tr := { tr with
        sleeps := tr.sleeps ++ (if i > 0 then [i] else [])
        attempts := tr.attempts ++ [i] }
      match fetch i with
      | .ok s => (tr, .ok s)
      | .error e => getGridStatusLoop maxRetries cancelled fetch (i + 1) remaining e tr

/-- `getGridStatus`, retry variant.  `cancelled i` tells whether the context
observed cancellation at the top of iteration `i`; `fetch i` is the outcome
of attempt `i`. -/
def getGridStatus (maxRetries : Nat) (cancelled : Nat → Bool)
    (fetch : Nat → Except String GridStatusV) :
    FetchTrace × Except String GridStatusV :=
  getGridStatusLoop maxRetries cancelled fetch 0 maxRetries "" ⟨[], []⟩

example :
    (getGridStatus 3 (fun _ => false) (fun _ => .error "boom")).2 =
    .error "failed to get grid status after 3 attempts: boom" := by rfl

example :
    (getGridStatus 3 (fun _ => false) (fun _ => .error "boom")).1 =
    ⟨[0, 1, 2], [1, 2]⟩ := by rfl

/-! ## The bounded-concurrency dispatch (`main.go` lines 270–325)

`CheckAndCleanup` dispatches termination units onto goroutines gated by a
counting semaphore: `sem := make(chan struct{}, maxParallel)`; the dispatcher
sends into `sem` before `go func(...)` (blocking while `maxParallel` units
are in flight) and each unit receives from `sem` when it completes,
regardless of outcome.  The dispatch discipline is modelled as a step
relation on the number of pending and in-flight units; `dispatch` is enabled
only while the semaphore has a free slot. -/

/-- Dispatcher state: units not yet dispatched, and units holding a
semaphore slot (dispatched, not yet completed). -/
structure DispatchState where
  pending : Nat
  inFlight : Nat
  deriving Repr, DecidableEq

/-- One scheduler step of the dispatch loop: `dispatch` models
`sem <- struct{}{}` followed by `go func(...)` (enabled only when the
buffered channel has room), `finish` models a goroutine running
`defer func() { <-sem }()` at completion (success or failure alike). -/
inductive DispatchStep (maxParallel : Nat) : DispatchState → DispatchState → Prop
  | dispatch {p f : Nat} (hp : 0 < p) (hf : f < maxParallel) :
      DispatchStep maxParallel ⟨p, f⟩ ⟨p - 1, f + 1⟩
  | finish {p f : Nat} (hf : 0 < f) :
      DispatchStep maxParallel ⟨p, f⟩ ⟨p, f - 1⟩

/-- States reachable during one pass that dispatches `n` termination units:
the reflexive-transitive closure of the scheduler steps from the initial
state (`n` pending, none in flight). -/
def DispatchReachable (maxParallel n : Nat) (st : DispatchState) : Prop :=
  Relation.ReflTransGen (DispatchStep maxParallel) ⟨n, 0⟩ st

/-! ## Characterisation of the session loop

`runCleanup` is characterised as a per-candidate computation over the
over-age sessions: each over-age session contributes one resolution attempt,
one outcome, at most one semaphore acquisition and at most one deletion,
and the error list is exactly the failed outcomes' messages. -/

/-- The error recorded for a failed resolution (`main.go` line 293). -/
def resolveErrMsg (s : SessionInfo) (e : String) : String :=
  "pod name retrieval failed for session " ++ s.sessionID ++ " on node " ++
    s.nodeIP ++ ": " ++ e

/-- The error recorded for a failed deletion (`main.go` line 318). -/
def deleteErrMsg (podName e : String) : String :=
  "failed to delete pod " ++ podName ++ ": " ++ e

/-- The outcome one termination candidate produces. -/
def candOutcome (kubectlGet : String → Except String String)
    (kubectlDelete : String → Option (String × String))
    (s : SessionInfo) : Outcome :=
  match getPodName kubectlGet s.nodeIP with
  | .error e => ⟨s.sessionID, none, some (resolveErrMsg s e)⟩
  | .ok podName =>
    match deletePod kubectlDelete podName with
    | .error e => ⟨s.sessionID, some podName, some (deleteErrMsg podName e)⟩
    | .ok _ => ⟨s.sessionID, some podName, none⟩

/-- The semaphore acquisition a candidate performs, if it resolves. -/
def candAcquire (kubectlGet : String → Except String String)
    (s : SessionInfo) : Option String :=
  (getPodName kubectlGet s.nodeIP).toOption.map fun _ => s.sessionID

/-- The deletion a candidate issues, if it resolves. -/
def candDelete (kubectlGet : String → Except String String)
    (s : SessionInfo) : Option (String × String) :=
  (getPodName kubectlGet s.nodeIP).toOption.map fun p => (s.sessionID, p)

/-- The pass state produced by a list of termination candidates. -/
def stateOf (kubectlGet : String → Except String String)
    (kubectlDelete : String → Option (String × String))
    (cands : List SessionInfo) : CleanState :=
  ⟨cands.filterMap fun s => (candOutcome kubectlGet kubectlDelete s).err,
   cands.map (·.nodeIP),
   cands.filterMap (candAcquire kubectlGet),
   cands.filterMap (candDelete kubectlGet),
   cands.map (candOutcome kubectlGet kubectlDelete)⟩

/-- Pointwise concatenation of pass states. -/
def CleanState.app (a b : CleanState) : CleanState :=
  ⟨a.errors ++ b.errors, a.resolves ++ b.resolves, a.acquires ++ b.acquires,
   a.deletes ++ b.deletes, a.outcomes ++ b.outcomes⟩

theorem CleanState.app_init (a : CleanState) : a.app CleanState.init = a := by
  cases a; simp [CleanState.app, CleanState.init]

theorem CleanState.init_app (a : CleanState) : CleanState.init.app a = a := by
  cases a; simp [CleanState.app, CleanState.init]

theorem CleanState.app_assoc (a b c : CleanState) :
    (a.app b).app c = a.app (b.app c) := by
  cases a; cases b; cases c; simp [CleanState.app]

theorem processSession_app (nowNs maxAgeSecs : Int) (kget : String → Except String String)
    (kdel : String → Option (String × String)) (st : CleanState) (s : SessionInfo) :
    processSession nowNs maxAgeSecs kget kdel st s =
      st.app (processSession nowNs maxAgeSecs kget kdel CleanState.init s) := by
  unfold processSession
  by_cases h : overAge nowNs maxAgeSecs s
  · simp only [h, not_true_eq_false, if_false]
    cases hg : getPodName kget s.nodeIP with
    | error e => cases st; simp [CleanState.app, CleanState.init]
    | ok p =>
      cases hd : deletePod kdel p with
      | error e => cases st; simp [CleanState.app, CleanState.init, hd]
      | ok u => cases st; simp [CleanState.app, CleanState.init, hd]
  · simp [h, CleanState.app_init]

theorem foldl_processSession (nowNs maxAgeSecs : Int)
    (kget : String → Except String String)
    (kdel : String → Option (String × String)) :
    ∀ (l : List SessionInfo) (st : CleanState),
      l.foldl (processSession nowNs maxAgeSecs kget kdel) st =
        st.app (runCleanup nowNs maxAgeSecs kget kdel l) := by
  intro l
  induction l with
  | nil => intro st; simp [runCleanup, CleanState.app_init]
  | cons s l ih =>
    intro st
    have hcons : runCleanup nowNs maxAgeSecs kget kdel (s :: l) =
        (processSession nowNs maxAgeSecs kget kdel CleanState.init s).app
          (runCleanup nowNs maxAgeSecs kget kdel l) := by
      simp only [runCleanup, List.foldl_cons]
      exact ih _
    rw [List.foldl_cons, ih, processSession_app, hcons, CleanState.app_assoc]

theorem processSession_init_overAge (nowNs maxAgeSecs : Int)
    (kget : String → Except String String)
    (kdel : String → Option (String × String)) (s : SessionInfo)
    (h : overAge nowNs maxAgeSecs s) :
    processSession nowNs maxAgeSecs kget kdel CleanState.init s =
      stateOf kget kdel [s] := by
  unfold processSession
  simp only [h, not_true_eq_false, if_false]
  cases hg : getPodName kget s.nodeIP with
  | error e =>
    simp [stateOf, CleanState.init, candOutcome, candAcquire, candDelete, hg,
      resolveErrMsg, Except.toOption]
  | ok p =>
    cases hd : deletePod kdel p with
    | error e =>
      simp [stateOf, CleanState.init, candOutcome, candAcquire, candDelete,
        hg, hd, Except.toOption, deleteErrMsg]
    | ok u =>
      simp [stateOf, CleanState.init, candOutcome, candAcquire, candDelete,
        hg, hd, Except.toOption]

theorem stateOf_cons (kget : String → Except String String)
    (kdel : String → Option (String × String)) (s : SessionInfo)
    (c : List SessionInfo) :
    stateOf kget kdel (s :: c) = (stateOf kget kdel [s]).app (stateOf kget kdel c) := by
  simp only [stateOf, CleanState.app, List.filterMap_cons, List.map_cons,
    List.map_nil, List.filterMap_nil]
  cases (candOutcome kget kdel s).err <;>
    cases candAcquire kget s <;>
    cases candDelete kget s <;> simp

/-- The session loop, characterised per candidate: exactly the over-age
sessions are processed, in order; each contributes one resolution attempt,
one outcome, and (iff it resolves) one semaphore slot and one `deletePod`
call; the error list is the failed outcomes' messages. -/
theorem runCleanup_eq (nowNs maxAgeSecs : Int)
    (kget : String → Except String String)
    (kdel : String → Option (String × String)) (l : List SessionInfo) :
    runCleanup nowNs maxAgeSecs kget kdel l =
      stateOf kget kdel (l.filter (overAge nowNs maxAgeSecs)) := by
  induction l with
  | nil => rfl
  | cons s l ih =>
    have hcons : runCleanup nowNs maxAgeSecs kget kdel (s :: l) =
        (processSession nowNs maxAgeSecs kget kdel CleanState.init s).app
          (runCleanup nowNs maxAgeSecs kget kdel l) := by
      simp only [runCleanup, List.foldl_cons]
      exact foldl_processSession nowNs maxAgeSecs kget kdel l _
    rw [hcons, ih]
    by_cases h : overAge nowNs maxAgeSecs s
    · rw [List.filter_cons_of_pos (by simpa using h),
        processSession_init_overAge nowNs maxAgeSecs kget kdel s h,
        stateOf_cons kget kdel s (List.filter (overAge nowNs maxAgeSecs) l)]
    · rw [List.filter_cons_of_neg (by simpa using h)]
      have : processSession nowNs maxAgeSecs kget kdel CleanState.init s =
          CleanState.init := by
        unfold processSession
        simp [h]
      rw [this, CleanState.init_app]

example :
    getPodName (fun _ => .ok "NAME READY STATUS\nchrome-node-abc 1/1 Running")
      "10.0.0.2" = .ok "chrome-node-abc" := by rfl

example : getPodName (fun _ => .ok "") "10.0.0.2" =
    .error "no pod found for IP 10.0.0.2" := by rfl

example : aggError ["a", "b"] =
    "encountered 2 errors during cleanup: [a b]" := by rfl

/-! ## Helper lemmas shared by the claim theorems -/

theorem length_filterMap_err (l : List Outcome) :
    (l.filterMap Outcome.err).length = (l.filter fun o => o.err.isSome).length := by
  induction l with
  | nil => rfl
  | cons o l ih => cases h : o.err <;> simp [List.filterMap_cons, h, ih]

theorem deletes_fst_of_filterMap (kget : String → Except String String) :
    ∀ c : List SessionInfo,
      (c.filterMap (candDelete kget)).map Prod.fst =
        (c.filter fun t => (getPodName kget t.nodeIP).toOption.isSome).map
          SessionInfo.sessionID := by
  intro c
  induction c with
  | nil => rfl
  | cons t c ih =>
    cases h : getPodName kget t.nodeIP with
    | error e => simp [candDelete, h, Except.toOption, ih]
    | ok p => simp [candDelete, h, Except.toOption, ih]

/-! ## Claim C1 -/

/-- Claim C1: in a pass, a session extracted from the snapshot receives
exactly one termination attempt (`deletePod` call) when its age exceeds
`maxAge`, and none when its age is at most `maxAge` — provided, as in the
claim's scenario, that each over-age session's workload resolves (resolution
failures are the subject of C5).  Stated as: the sequence of sessions for
which a `deletePod` call is issued is exactly the subsequence of over-age
sessions. -/
theorem cleanup_terminates_exactly_overage (nowNs maxAgeSecs : Int)
    (kget : String → Except String String)
    (kdel : String → Option (String × String)) (sessions : List SessionInfo)
    (hres : ∀ s ∈ sessions, overAge nowNs maxAgeSecs s = true →
      ∃ p, getPodName kget s.nodeIP = .ok p) :
    (runCleanup nowNs maxAgeSecs kget kdel sessions).deletes.map Prod.fst =
      (sessions.filter (overAge nowNs maxAgeSecs)).map SessionInfo.sessionID := by
  rw [runCleanup_eq]
  show ((sessions.filter (overAge nowNs maxAgeSecs)).filterMap
      (candDelete kget)).map Prod.fst = _
  rw [deletes_fst_of_filterMap]
  congr 1
  apply List.filter_eq_self.mpr
  intro t ht
  obtain ⟨p, hp⟩ := hres t (List.mem_of_mem_filter ht) (List.of_mem_filter ht)
  simp [hp, Except.toOption]

/-- Witness for C1, instantiating the claim's scenario: three sessions aged
30 minutes, 3 hours and 5 hours against `maxAge = 2h` (7200 s); exactly the
3-hour and 5-hour sessions get termination attempts. -/
theorem cleanup_terminates_exactly_overage_witness :
    (runCleanup 1730800000000000000 7200
        (fun ip => .ok ("NAME READY STATUS\npod-" ++ ip ++ " 1/1 Running"))
        (fun _ => none)
        [⟨"10.0.0.1", 1730800000000000000 - 1800 * 1000000000, "sess-30m", "", "ACTIVE"⟩,
         ⟨"10.0.0.2", 1730800000000000000 - 10800 * 1000000000, "sess-3h", "", "ACTIVE"⟩,
         ⟨"10.0.0.3", 1730800000000000000 - 18000 * 1000000000, "sess-5h", "", "ACTIVE"⟩]).deletes.map
      Prod.fst = ["sess-3h", "sess-5h"] := by
  refine (cleanup_terminates_exactly_overage 1730800000000000000 7200 _ _ _ ?_).trans
    (by decide)
  intro s hs _
  simp only [List.mem_cons, List.not_mem_nil, or_false] at hs
  rcases hs with rfl | rfl | rfl
  · exact ⟨"pod-10.0.0.1", rfl⟩
  · exact ⟨"pod-10.0.0.2", rfl⟩
  · exact ⟨"pod-10.0.0.3", rfl⟩

/-! ## Claim C2 -/

/-- Claim C2: the pass verdict is a failure iff some per-session outcome
failed; the recorded error list is exactly the failed outcomes' errors (so
success outcomes never appear in it and the reported count
`len(gc.errors)` equals the number of failed outcomes); a pass with no
failed outcome returns success. -/
theorem verdict_aggregates_failed_outcomes (nowNs maxAgeSecs : Int)
    (kget : String → Except String String)
    (kdel : String → Option (String × String)) (sessions : List SessionInfo) :
    (runCleanup nowNs maxAgeSecs kget kdel sessions).errors =
        (runCleanup nowNs maxAgeSecs kget kdel sessions).outcomes.filterMap
          Outcome.err ∧
      (cleanupVerdict (runCleanup nowNs maxAgeSecs kget kdel sessions) = .ok () ↔
        ∀ o ∈ (runCleanup nowNs maxAgeSecs kget kdel sessions).outcomes,
          o.err = none) ∧
      (runCleanup nowNs maxAgeSecs kget kdel sessions).errors.length =
        ((runCleanup nowNs maxAgeSecs kget kdel sessions).outcomes.filter
          fun o => o.err.isSome).length ∧
      ((runCleanup nowNs maxAgeSecs kget kdel sessions).errors ≠ [] →
        cleanupVerdict (runCleanup nowNs maxAgeSecs kget kdel sessions) =
          .error (aggError (runCleanup nowNs maxAgeSecs kget kdel sessions).errors)) := by
  rw [runCleanup_eq]
  set c := sessions.filter (overAge nowNs maxAgeSecs) with hc
  have herr : (stateOf kget kdel c).errors =
      (stateOf kget kdel c).outcomes.filterMap Outcome.err := by
    simp only [stateOf, List.filterMap_map]
    rfl
  refine ⟨herr, ?_, ?_, ?_⟩
  · rw [cleanupVerdict, herr]
    by_cases h : (stateOf kget kdel c).outcomes.filterMap Outcome.err = []
    · simp only [h, List.isEmpty_nil, if_true]
      simp only [List.filterMap_eq_nil_iff] at h
      simpa using h
    · have : ((stateOf kget kdel c).outcomes.filterMap Outcome.err).isEmpty = false := by
        simpa [List.isEmpty_iff] using h
      simp only [this, if_false]
      constructor
      · intro hcontra; exact absurd hcontra (by simp)
      · intro hall
        exact absurd (List.filterMap_eq_nil_iff.mpr (by simpa using hall)) h
  · rw [herr, length_filterMap_err]
  · intro hne
    rw [cleanupVerdict, if_neg (by simpa [List.isEmpty_iff] using hne)]

/-- Witness for C2: a pass with one failing and one succeeding candidate
yields the failure verdict carrying the single recorded error. -/
theorem verdict_aggregates_failed_outcomes_witness :
    cleanupVerdict (runCleanup 1730800000000000000 7200
        (fun ip => if ip = "10.0.0.9" then .ok "" else
          .ok "NAME READY STATUS\npod-ok 1/1 Running")
        (fun _ => none)
        [⟨"10.0.0.9", 1730800000000000000 - 10800 * 1000000000, "sess-a", "", "ACTIVE"⟩,
         ⟨"10.0.0.2", 1730800000000000000 - 10800 * 1000000000, "sess-b", "", "ACTIVE"⟩]) =
      .error (aggError (runCleanup 1730800000000000000 7200
        (fun ip => if ip = "10.0.0.9" then .ok "" else
          .ok "NAME READY STATUS\npod-ok 1/1 Running")
        (fun _ => none)
        [⟨"10.0.0.9", 1730800000000000000 - 10800 * 1000000000, "sess-a", "", "ACTIVE"⟩,
         ⟨"10.0.0.2", 1730800000000000000 - 10800 * 1000000000, "sess-b", "", "ACTIVE"⟩]).errors) := by
  exact (verdict_aggregates_failed_outcomes 1730800000000000000 7200 _ _ _).2.2.2
    (by decide)

/-! ## Claim C5 -/

/-- Claim C5: a termination candidate whose workload resolution fails is
recorded as a failure outcome and dropped before dispatch — it acquires no
semaphore slot and no `deletePod` call is issued for it — while every other
candidate is still resolved and dispatched; and an empty `kubectl` listing
(zero matches) yields the `no pod found for IP …` error. -/
theorem resolution_failure_drops_candidate (nowNs maxAgeSecs : Int)
    (kget : String → Except String String)
    (kdel : String → Option (String × String)) (sessions : List SessionInfo)
    (s : SessionInfo) (e : String) (hmem : s ∈ sessions)
    (hover : overAge nowNs maxAgeSecs s = true)
    (hnodup : (sessions.map SessionInfo.sessionID).Nodup)
    (hfail : getPodName kget s.nodeIP = .error e) :
    (⟨s.sessionID, none, some (resolveErrMsg s e)⟩ : Outcome) ∈
        (runCleanup nowNs maxAgeSecs kget kdel sessions).outcomes ∧
      resolveErrMsg s e ∈ (runCleanup nowNs maxAgeSecs kget kdel sessions).errors ∧
      s.sessionID ∉ (runCleanup nowNs maxAgeSecs kget kdel sessions).acquires ∧
      (∀ pr ∈ (runCleanup nowNs maxAgeSecs kget kdel sessions).deletes,
        pr.1 ≠ s.sessionID) ∧
      (runCleanup nowNs maxAgeSecs kget kdel sessions).resolves =
        (sessions.filter (overAge nowNs maxAgeSecs)).map SessionInfo.nodeIP ∧
      (runCleanup nowNs maxAgeSecs kget kdel sessions).deletes.map Prod.fst =
        ((sessions.filter (overAge nowNs maxAgeSecs)).filter fun t =>
          (getPodName kget t.nodeIP).toOption.isSome).map SessionInfo.sessionID ∧
      (∀ ip output, kget ip = .ok output → (output.data.splitOn '\n').length < 2 →
        getPodName kget ip = .error ("no pod found for IP " ++ ip)) := by
  have hinj := List.inj_on_of_nodup_map hnodup
  have hcand : s ∈ sessions.filter (overAge nowNs maxAgeSecs) :=
    List.mem_filter.mpr ⟨hmem, hover⟩
  rw [runCleanup_eq]
  refine ⟨?_, ?_, ?_, ?_, ?_, ?_, ?_⟩
  · simp only [stateOf]
    refine List.mem_map.mpr ⟨s, hcand, ?_⟩
    simp [candOutcome, hfail]
  · simp only [stateOf]
    refine List.mem_filterMap.mpr ⟨s, hcand, ?_⟩
    simp [candOutcome, hfail]
  · simp only [stateOf]
    intro hcontra
    obtain ⟨t, ht, hts⟩ := List.mem_filterMap.mp hcontra
    have htok : (getPodName kget t.nodeIP).toOption.isSome := by
      cases hg : getPodName kget t.nodeIP with
      | error _ => simp [candAcquire, hg, Except.toOption] at hts
      | ok _ => simp [Except.toOption]
    have htid : t.sessionID = s.sessionID := by
      cases hg : getPodName kget t.nodeIP with
      | error _ => simp [candAcquire, hg, Except.toOption] at hts
      | ok _ => simpa [candAcquire, hg, Except.toOption] using hts
    have := hinj (List.mem_of_mem_filter ht) hmem htid
    subst this
    cases hg : getPodName kget t.nodeIP with
    | error _ => rw [hg] at htok; simp [Except.toOption] at htok
    | ok _ => rw [hg] at hfail; exact Except.noConfusion hfail
  · simp only [stateOf]
    intro pr hpr
    obtain ⟨t, ht, hts⟩ := List.mem_filterMap.mp hpr
    cases hg : getPodName kget t.nodeIP with
    | error _ => simp [candDelete, hg, Except.toOption] at hts
    | ok p =>
      simp only [candDelete, hg, Except.toOption, Option.map_some'] at hts
      intro hetq
      injection hts with hpr2
      rw [← hpr2] at hetq
      simp only at hetq
      have := hinj (List.mem_of_mem_filter ht) hmem hetq
      subst this
      rw [hg] at hfail
      exact Except.noConfusion hfail
  · simp [stateOf]
  · simp only [stateOf]
    exact deletes_fst_of_filterMap kget _
  · intro ip output hok hshort
    unfold getPodName
    rw [hok]
    simp only [if_pos hshort]

/-- Witness for C5: two over-age candidates; resolution for the first
returns an empty listing, so it is dropped with a `no pod found` failure
outcome while the second is still dispatched. -/
theorem resolution_failure_drops_candidate_witness :
    ((⟨"sess-a", none, some (resolveErrMsg
        ⟨"10.0.0.9", 1730800000000000000 - 10800 * 1000000000, "sess-a", "", "ACTIVE"⟩
        "no pod found for IP 10.0.0.9")⟩ : Outcome) ∈
      (runCleanup 1730800000000000000 7200
        (fun ip => if ip = "10.0.0.9" then .ok "" else
          .ok "NAME READY STATUS\npod-ok 1/1 Running")
        (fun _ => none)
        [⟨"10.0.0.9", 1730800000000000000 - 10800 * 1000000000, "sess-a", "", "ACTIVE"⟩,
         ⟨"10.0.0.2", 1730800000000000000 - 10800 * 1000000000, "sess-b", "", "ACTIVE"⟩]).outcomes) ∧
    (runCleanup 1730800000000000000 7200
        (fun ip => if ip = "10.0.0.9" then .ok "" else
          .ok "NAME READY STATUS\npod-ok 1/1 Running")
        (fun _ => none)
        [⟨"10.0.0.9", 1730800000000000000 - 10800 * 1000000000, "sess-a", "", "ACTIVE"⟩,
         ⟨"10.0.0.2", 1730800000000000000 - 10800 * 1000000000, "sess-b", "", "ACTIVE"⟩]).deletes.map
      Prod.fst = ["sess-b"] := by
  have h := resolution_failure_drops_candidate 1730800000000000000 7200
    (fun ip => if ip = "10.0.0.9" then .ok "" else
      .ok "NAME READY STATUS\npod-ok 1/1 Running")
    (fun _ => none)
    [⟨"10.0.0.9", 1730800000000000000 - 10800 * 1000000000, "sess-a", "", "ACTIVE"⟩,
     ⟨"10.0.0.2", 1730800000000000000 - 10800 * 1000000000, "sess-b", "", "ACTIVE"⟩]
    ⟨"10.0.0.9", 1730800000000000000 - 10800 * 1000000000, "sess-a", "", "ACTIVE"⟩
    "no pod found for IP 10.0.0.9"
    (by decide) (by decide) (by decide) (by rfl)
  exact ⟨h.1, h.2.2.2.2.2.1.trans (by decide)⟩

/-! ## Claim C7 -/

/-- Claim C7: a pass over a snapshot in which no extracted session is
over-age (including the zero-session snapshot, where the loop is never
reached: line 265 returns immediately) performs no resolution call, no
semaphore acquisition and no termination call, records nothing, and
returns success. -/
theorem no_overage_pass_is_noop (nowNs maxAgeSecs : Int)
    (kget : String → Except String String)
    (kdel : String → Option (String × String)) (status : GridStatusV)
    (sessions : List SessionInfo) (hparse : parseSessionInfo status = .ok sessions)
    (hage : ∀ s ∈ sessions, overAge nowNs maxAgeSecs s = false) :
    (CheckAndCleanup nowNs maxAgeSecs kget kdel status).1 = CleanState.init ∧
      (CheckAndCleanup nowNs maxAgeSecs kget kdel status).1.resolves = [] ∧
      (CheckAndCleanup nowNs maxAgeSecs kget kdel status).1.deletes = [] ∧
      (CheckAndCleanup nowNs maxAgeSecs kget kdel status).2 = .ok () := by
  have hrun : runCleanup nowNs maxAgeSecs kget kdel sessions = CleanState.init := by
    rw [runCleanup_eq]
    have : sessions.filter (overAge nowNs maxAgeSecs) = [] := by
      apply List.filter_eq_nil_iff.mpr
      intro s hs
      simp [hage s hs]
    rw [this]
    rfl
  have hmain : (CheckAndCleanup nowNs maxAgeSecs kget kdel status).1 = CleanState.init ∧
      (CheckAndCleanup nowNs maxAgeSecs kget kdel status).2 = .ok () := by
    unfold CheckAndCleanup
    rw [hparse]
    by_cases hz : sessions.length = 0
    · simp [hz]
    · simp only [hz, if_false]
      have hv : cleanupVerdict (runCleanup nowNs maxAgeSecs kget kdel sessions) =
          .ok () := by rw [hrun]; rfl
      exact ⟨hrun, hv⟩
  refine ⟨hmain.1, ?_, ?_, hmain.2⟩ <;> rw [hmain.1] <;> rfl

/-- Witness for C7: a snapshot with one 30-minute-old session and
`maxAge = 2h` produces the empty trace and the success verdict. -/
theorem no_overage_pass_is_noop_witness :
    (CheckAndCleanup 1730800000000000000 7200 (fun _ => .error "unused")
        (fun _ => some ("unused", ""))
        ⟨true, [⟨"http://10.0.0.7:5555",
          [⟨some ⟨"2024-11-05T09:16:40Z", "sess-fresh"⟩, "ACTIVE"⟩]⟩]⟩).1 =
        CleanState.init ∧
      (CheckAndCleanup 1730800000000000000 7200 (fun _ => .error "unused")
        (fun _ => some ("unused", ""))
        ⟨true, [⟨"http://10.0.0.7:5555",
          [⟨some ⟨"2024-11-05T09:16:40Z", "sess-fresh"⟩, "ACTIVE"⟩]⟩]⟩).2 = .ok () := by
  have h := no_overage_pass_is_noop 1730800000000000000 7200
    (fun _ => .error "unused") (fun _ => some ("unused", ""))
    ⟨true, [⟨"http://10.0.0.7:5555",
      [⟨some ⟨"2024-11-05T09:16:40Z", "sess-fresh"⟩, "ACTIVE"⟩]⟩]⟩
    [⟨"10.0.0.7", 1730798200000000000, "sess-fresh", "", "ACTIVE"⟩]
    (by rfl) (by decide)
  exact ⟨h.1, h.2.2.2⟩

/-! ## Claim C6 -/

theorem getGridStatusLoop_trace (mr : Nat) (cancelled : Nat → Bool)
    (fetch : Nat → Except String GridStatusV) :
    ∀ (remaining i : Nat) (lastErr : String) (tr : FetchTrace),
      ∃ k, k ≤ remaining ∧
        (getGridStatusLoop mr cancelled fetch i remaining lastErr tr).1.attempts =
          tr.attempts ++ List.range' i k ∧
        (getGridStatusLoop mr cancelled fetch i remaining lastErr tr).1.sleeps =
          tr.sleeps ++ (List.range' i k).filter (fun j => decide (0 < j)) := by
  intro remaining
  induction remaining with
  | zero => intro i lastErr tr; exact ⟨0, Nat.le_refl 0, by simp [getGridStatusLoop],
      by simp [getGridStatusLoop]⟩
  | succ r ih =>
    intro i lastErr tr
    unfold getGridStatusLoop
    by_cases hcan : cancelled i
    · exact ⟨0, Nat.zero_le _, by simp [hcan], by simp [hcan]⟩
    · simp only [hcan, if_false]
      cases hf : fetch i with
      | ok s =>
        refine ⟨1, by omega, ?_, ?_⟩
        · simp [List.range'_one]
        · by_cases hi : 0 < i <;>
            simp [List.range'_one, hi, List.filter_cons, List.filter_nil]
      | error e =>
        obtain ⟨k, hk, ha, hs⟩ := ih (i + 1) e
          ⟨tr.attempts ++ [i], tr.sleeps ++ (if i > 0 then [i] else [])⟩
        refine ⟨k + 1, by omega, ?_, ?_⟩
        · show (getGridStatusLoop mr cancelled fetch (i + 1) r e
              ⟨tr.attempts ++ [i], tr.sleeps ++ (if i > 0 then [i] else [])⟩).1.attempts =
            tr.attempts ++ List.range' i (k + 1)
          rw [ha, List.range'_succ]
          simp
        · show (getGridStatusLoop mr cancelled fetch (i + 1) r e
              ⟨tr.attempts ++ [i], tr.sleeps ++ (if i > 0 then [i] else [])⟩).1.sleeps =
            tr.sleeps ++ (List.range' i (k + 1)).filter (fun j => decide (0 < j))
          rw [hs, List.range'_succ, List.filter_cons]
          by_cases hi : 0 < i <;> simp [hi]

theorem getGridStatusLoop_exhaust (mr : Nat) (cancelled : Nat → Bool)
    (fetch : Nat → Except String GridStatusV) (errs : Nat → String) :
    ∀ (remaining i : Nat) (lastErr : String) (tr : FetchTrace),
      (∀ j, j < remaining → cancelled (i + j) = false) →
      (∀ j, j < remaining → fetch (i + j) = .error (errs (i + j))) →
      (getGridStatusLoop mr cancelled fetch i remaining lastErr tr).2 =
        .error ("failed to get grid status after " ++ toString mr ++
          " attempts: " ++ (if remaining = 0 then lastErr else errs (i + remaining - 1))) := by
  intro remaining
  induction remaining with
  | zero => intro i lastErr tr _ _; simp [getGridStatusLoop]
  | succ r ih =>
    intro i lastErr tr hcan hfet
    unfold getGridStatusLoop
    have hc0 : cancelled i = false := by simpa using hcan 0 (by omega)
    have hf0 : fetch i = .error (errs i) := by simpa using hfet 0 (by omega)
    simp only [hc0, Bool.false_eq_true, if_false, hf0]
    have := ih (i + 1) (errs i)
      { tr with
        sleeps := tr.sleeps ++ (if i > 0 then [i] else [])
        attempts := tr.attempts ++ [i] }
      (fun j hj => by have := hcan (j + 1) (by omega); simpa [Nat.add_assoc, Nat.add_comm 1 j] using this)
      (fun j hj => by have := hfet (j + 1) (by omega); simpa [Nat.add_assoc, Nat.add_comm 1 j] using this)
    rw [this]
    congr 2
    by_cases hr : r = 0
    · subst hr; simp
    · rw [if_neg hr, if_neg (by omega)]
      congr 1
      omega

/-- Claim C6: the status fetch performs at most `maxRetries` attempts; the
attempt indices run consecutively from 0 and the sleep before attempt `i`
(performed only for `i > 0`) is `i` seconds — linear backoff; exhausting all
attempts yields the single wrapped error naming the attempt count; and no
retries occur elsewhere in the pass — the session loop resolves each
candidate exactly once and issues at most one deletion per candidate. -/
theorem getGridStatus_retries_bounded_linear (mr : Nat) (cancelled : Nat → Bool)
    (fetch : Nat → Except String GridStatusV) (errs : Nat → String) :
    (getGridStatus mr cancelled fetch).1.attempts.length ≤ mr ∧
      (getGridStatus mr cancelled fetch).1.attempts =
        List.range (getGridStatus mr cancelled fetch).1.attempts.length ∧
      (getGridStatus mr cancelled fetch).1.sleeps =
        (getGridStatus mr cancelled fetch).1.attempts.filter (fun i => decide (0 < i)) ∧
      (0 < mr → (∀ i, i < mr → cancelled i = false) →
        (∀ i, i < mr → fetch i = .error (errs i)) →
        (getGridStatus mr cancelled fetch).2 =
          .error ("failed to get grid status after " ++ toString mr ++
            " attempts: " ++ errs (mr - 1))) ∧
      (∀ (nowNs maxAgeSecs : Int) (kget : String → Except String String)
        (kdel : String → Option (String × String)) (sessions : List SessionInfo),
        (runCleanup nowNs maxAgeSecs kget kdel sessions).resolves =
            (sessions.filter (overAge nowNs maxAgeSecs)).map SessionInfo.nodeIP ∧
          (runCleanup nowNs maxAgeSecs kget kdel sessions).deletes =
            (sessions.filter (overAge nowNs maxAgeSecs)).filterMap (candDelete kget)) := by
  obtain ⟨k, hk, ha, hs⟩ := getGridStatusLoop_trace mr cancelled fetch mr 0 "" ⟨[], []⟩
  have hattempts : (getGridStatus mr cancelled fetch).1.attempts = List.range k := by
    rw [getGridStatus, ha]
    simp [List.range_eq_range']
  have hlen : (getGridStatus mr cancelled fetch).1.attempts.length = k := by
    rw [hattempts, List.length_range]
  refine ⟨by omega, by rw [hattempts]; simp [List.length_range], ?_, ?_, ?_⟩
  · rw [hattempts, getGridStatus, hs]
    simp [List.range_eq_range']
  · intro h0 hcan hfet
    have := getGridStatusLoop_exhaust mr cancelled fetch errs mr 0 "" ⟨[], []⟩
      (fun j hj => by simpa using hcan j hj)
      (fun j hj => by simpa using hfet j hj)
    rw [getGridStatus, this, if_neg (by omega)]
    congr 3
    omega
  · intro nowNs maxAgeSecs kget kdel sessions
    rw [runCleanup_eq]
    exact ⟨rfl, rfl⟩

/-- Witness for C6: `maxRetries = 2` with every attempt failing: two
attempts run, one sleep of 1 s happens between them, and the final error
names the attempt count. -/
theorem getGridStatus_retries_bounded_linear_witness :
    (getGridStatus 2 (fun _ => false) (fun _ => .error "boom")).2 =
        .error "failed to get grid status after 2 attempts: boom" ∧
      (getGridStatus 2 (fun _ => false) (fun _ => .error "boom")).1.attempts.length ≤ 2 := by
  have h := getGridStatus_retries_bounded_linear 2 (fun _ => false)
    (fun _ => .error "boom") (fun _ => "boom")
  exact ⟨(h.2.2.2.1 (by omega) (fun i _ => rfl) (fun i _ => rfl)).trans (by rfl), h.1⟩

/-! ## Claim C8 -/

/-- Claim C8: in every state reachable during the dispatch of a pass, the
number of in-flight termination units never exceeds `maxParallel`: a unit
acquires a semaphore slot before starting (`dispatch` requires a free slot)
and releases it on completion regardless of outcome (`finish`). -/
theorem semaphore_bounds_inflight (maxParallel n : Nat) (st : DispatchState)
    (h : DispatchReachable maxParallel n st) : st.inFlight ≤ maxParallel := by
  induction h with
  | refl => exact Nat.zero_le _
  | tail _ hstep ih =>
    cases hstep with
    | dispatch hp hf => exact hf
    | finish hf => exact le_trans (Nat.sub_le _ 1) ih

/-- Witness for C8: with `maxParallel = 2` and five pending units, the state
after one dispatch step is reachable and respects the bound. -/
theorem semaphore_bounds_inflight_witness :
    (⟨4, 1⟩ : DispatchState).inFlight ≤ 2 :=
  semaphore_bounds_inflight 2 5 ⟨4, 1⟩
    (Relation.ReflTransGen.single (DispatchStep.dispatch (by omega) (by omega)))

/-! ## Claim C3 -/

/-- The node address `parseSessionInfo` derives, written as a total function
of the node (empty when the URI does not parse, in which case extraction has
already failed). -/
def nodeIPof (n : NodeJ) : String :=
  match parseURL n.uri.data with
  | .ok u => hostIP u.host
  | .error _ => ""

/-- The extraction error a node contributes, if its URI does not parse. -/
def nodeParseErr (n : NodeJ) : Option String :=
  match parseURL n.uri.data with
  | .error e => some (nodeURIErr n.uri e)
  | .ok _ => none

/-- The `SessionInfo` a slot contributes: nothing for a free slot or an
unparseable start timestamp. -/
def slotSessionSpec (nodeIP : String) (sl : SlotJ) : Option SessionInfo :=
  sl.session.bind fun sess => (parseRFC3339 sess.start).map fun t =>
    ⟨nodeIP, t, sess.sessionID, "", sl.state⟩

/-- What extraction actually computes, per the code: the first node with an
unparseable URI aborts the whole extraction with its error; otherwise every
node — regardless of its address, loopback and empty included — contributes
the sessions of its parseable slots. -/
def extractSpec (nodes : List NodeJ) : Except String (List SessionInfo) :=
  match nodes.findSome? nodeParseErr with
  | some msg => .error msg
  | none => .ok (nodes.flatMap fun n => n.slots.filterMap (slotSessionSpec (nodeIPof n)))

theorem slotSessions_eq_filterMap (nodeIP : String) :
    ∀ slots : List SlotJ,
      slotSessions nodeIP slots = slots.filterMap (slotSessionSpec nodeIP) := by
  intro slots
  induction slots with
  | nil => rfl
  | cons sl rest ih =>
    cases hsess : sl.session with
    | none => simp [slotSessions, hsess, slotSessionSpec, List.filterMap_cons, ih]
    | some sess =>
      cases ht : parseRFC3339 sess.start with
      | none =>
        simp [slotSessions, hsess, ht, slotSessionSpec, List.filterMap_cons, ih]
      | some t =>
        simp [slotSessions, hsess, ht, slotSessionSpec, List.filterMap_cons, ih]

/-- Claim C3 as amended: session extraction aborts with an error exactly when
some node URI fails to parse (the first such node's error — a per-node, not
merely top-level, failure); when every node URI parses, the result contains
one session per slot with a session reference and a parseable RFC3339 start
timestamp (a slot whose timestamp fails to parse is skipped individually),
and nodes are never filtered by address: empty-host and loopback nodes
contribute their sessions like any other node. -/
theorem parseSessionInfo_characterised (status : GridStatusV) :
    parseSessionInfo status = extractSpec status.nodes := by
  show parseNodes status.nodes = extractSpec status.nodes
  induction status.nodes with
  | nil => rfl
  | cons n rest ih =>
    unfold parseNodes extractSpec
    cases hp : parseURL n.uri.data with
    | error e =>
      rw [List.findSome?_cons]
      simp [nodeParseErr, hp]
    | ok u =>
      rw [List.findSome?_cons]
      simp only [nodeParseErr, hp]
      unfold extractSpec at ih
      cases hr : rest.findSome? nodeParseErr with
      | some msg =>
        rw [hr] at ih
        simp only [ih]
        rfl
      | none =>
        rw [hr] at ih
        simp only [ih]
        show Except.ok (slotSessions (hostIP u.host) n.slots ++ _) = _
        rw [slotSessions_eq_filterMap]
        simp only [List.flatMap_cons]
        have : nodeIPof n = hostIP u.host := by simp [nodeIPof, hp]
        rw [this]

/-- Counterexample to claim C3 as stated: a snapshot holding a node with an
unparseable (empty-host–like) address `":"` and a loopback node with a valid
session.  The claim predicts success with both nodes skipped (`.ok []`); the
code instead (a) aborts the whole extraction on the unparseable node URI — a
per-node failure, not a top-level one — and (b) extracts the loopback node's
session rather than skipping it. -/
theorem parseSessionInfo_no_address_skip :
    parseSessionInfo ⟨true, [⟨":", []⟩,
        ⟨"http://127.0.0.1:5555",
          [⟨some ⟨"2024-11-05T09:16:40Z", "sess-loop"⟩, "ACTIVE"⟩]⟩]⟩ =
      .error "failed to parse node URI :: parse \":\": missing protocol scheme" ∧
    parseSessionInfo ⟨true, [⟨"http://127.0.0.1:5555",
        [⟨some ⟨"2024-11-05T09:16:40Z", "sess-loop"⟩, "ACTIVE"⟩]⟩]⟩ =
      .ok [⟨"127.0.0.1", 1730798200000000000, "sess-loop", "", "ACTIVE"⟩] :=
  ⟨rfl, rfl⟩

/-! ## Claim C4 -/

/-- Claim C4 is refuted by the code: for a well-formed remote URL that
carries an explicit port, `GetLocalURL` keeps the *original* hostname and
replaces only the port (`hostname = parts[0]` when `len(parts) > 1`,
`portforwarder.go` lines 100–106); the host is rewritten to `localhost` only
when the input URL has no port.  The spec's intent — the function is named
`GetLocalURL`, initialises `hostname` to `"localhost"`, and exists so that
callers target the local tunnel — is contradicted on every remote URL with a
port.  Scheme and path are preserved either way. -/
theorem getLocalURL_keeps_remote_host :
    GetLocalURL 9515 "http://selenium-router:4444/wd/hub/status" =
        "http://selenium-router:9515/wd/hub/status" ∧
      GetLocalURL 9515 "http://selenium-router:4444/wd/hub/status" ≠
        "http://localhost:9515/wd/hub/status" ∧
      GetLocalURL 9515 "http://selenium-router/wd/hub/status" =
        "http://localhost:9515/wd/hub/status" := by
  refine ⟨by decide, by decide, by decide⟩

/-! ## Claim C10 -/

/-- Claim C10: when the input string fails to parse as a URL, `GetLocalURL`
returns it unchanged (the `err != nil` branch of `portforwarder.go` lines
93–98); the host rewrite is applied only to parseable URLs. -/
theorem getLocalURL_parse_failure_identity (localPort : Nat) (s : String)
    (h : ∃ e, parseURL s.data = .error e) :
    GetLocalURL localPort s = s := by
  obtain ⟨e, he⟩ := h
  unfold GetLocalURL getLocalURLL
  rw [he]

/-- Witness for C10: the string `":"` makes `url.Parse` fail with
"missing protocol scheme" and is returned unchanged. -/
theorem getLocalURL_parse_failure_identity_witness :
    GetLocalURL 9515 ":" = ":" :=
  getLocalURL_parse_failure_identity 9515 ":"
    ⟨"missing protocol scheme".data, rfl⟩
